import Mathlib

/-
Verification of the TetGen wrapper core (src/dtcc_tetgen_wrapper/cpp/tetwrap/tetwrap.cpp).

The embedding mirrors the C++ source:
  * numpy arrays coming through pybind11 (`py::array_t` with `c_style | forcecast`)
    are modelled by `NpArr`: a 1-D array, a 2-D array with a column count, or an
    array of any other rank.  A default-constructed `py::array_t<T>()` (what the
    buffer converters return for a null pointer or non-positive dimensions) is a
    1-D array of size 0, i.e. `NpArr.oneD []`.
  * `REAL` (TetGen's coordinate type) never takes part in any arithmetic in the
    wrapper - coordinates are only copied - so it is modelled by `ℚ`, which keeps
    every definition computable and decidable.
  * C `int` values are modelled by `Int`; at the single site where the source
    performs arithmetic on attacker-controlled 32-bit data (`raw_marker + 1`) the
    32-bit wraparound is made explicit through `wrap32`.
  * the opaque `tetrahedralize` engine is a parameter `gen` returning
    `Except String GenOut`; the `catch` around the native call is modelled by
    re-wrapping its error message.
-/

namespace Tetwrap

/-- TetGen's `REAL` coordinate type.  The wrapper only copies coordinates, so a
computable field with decidable equality is a faithful model. -/
abbrev REAL : Type := ℚ

/-- A numpy array as it arrives through / leaves via pybind11: 1-D data, a 2-D
row-major matrix carrying its column count, or an array of any other rank.
`oneD []` doubles as the default-constructed (size-0, 1-D) `py::array_t`. -/
inductive NpArr (α : Type) where
  | oneD (data : List α)
  | twoD (cols : Nat) (rows : List (List α))
  | other
  deriving DecidableEq

/-- Rows of a 2-D array; `[]` for anything else. -/
def NpArr.rowsOf {α : Type} : NpArr α → List (List α)
  | .twoD _ r => r
  | _ => []

/-- Two's-complement 32-bit wraparound: the value a C `int` ends up holding. -/
def wrap32 (x : Int) : Int := (x + 2147483648) % 4294967296 - 2147483648

theorem wrap32_eq_self (x : Int) (h1 : -2147483648 ≤ x) (h2 : x < 2147483648) :
    wrap32 x = x := by
  unfold wrap32; omega

/-- The combined facet marker list built by `tetrahedralize_core`
(tetwrap.cpp:236-272): first the `M` mesh-facet markers
(`-1` when no marker array was supplied or the raw marker is negative,
`raw + 1` otherwise, computed in a C `int`), then one marker `-(bi + 2)` per
boundary loop `bi`. -/
def buildFacetMarkers (mk : Option (List Int)) (M B : Nat) : List Int :=
  (List.range M).map (fun fi =>
    match mk with
    | none => -1
    | some mks => if mks.getD fi 0 < 0 then -1 else wrap32 (mks.getD fi 0 + 1))
  ++ (List.range B).map (fun bi : Nat => wrap32 (-((bi : Int) + 2)))

theorem buildFacetMarkers_length (mk : Option (List Int)) (M B : Nat) :
    (buildFacetMarkers mk M B).length = M + B := by
  simp [buildFacetMarkers]

theorem getD_map_range {α : Type} (f : Nat → α) (d : α) (n i : Nat) (h : i < n) :
    ((List.range n).map f).getD i d = f i := by
  rw [List.getD_eq_getElem?_getD, List.getElem?_map, List.getElem?_range h]
  rfl

theorem buildFacetMarkers_mesh (mk : Option (List Int)) (M B : Nat) (i : Nat)
    (h : i < M) :
    (buildFacetMarkers mk M B).getD i 0 =
      (match mk with
       | none => -1
       | some mks => if mks.getD i 0 < 0 then -1 else wrap32 (mks.getD i 0 + 1)) := by
  unfold buildFacetMarkers
  rw [List.getD_append _ _ _ _ (by simpa using h)]
  exact getD_map_range _ _ _ _ h

theorem buildFacetMarkers_loop (mk : Option (List Int)) (M B : Nat) (i : Nat)
    (h : i < B) :
    (buildFacetMarkers mk M B).getD (M + i) 0 = wrap32 (-((i : Int) + 2)) := by
  unfold buildFacetMarkers
  rw [List.getD_append_right _ _ _ _ (by simp)]
  simp only [List.length_map, List.length_range, Nat.add_sub_cancel_left]
  exact getD_map_range _ _ _ _ h

/-- Claim C1 (amended): the combined facet marker list has `M + B` entries; entry
`i < M` is `-1` when the marker array is absent or the raw value is negative and
`raw + 1` when `0 ≤ raw`, provided `raw ≤ 2^31 - 2` (at `raw = 2^31 - 1` the C
`int` increment wraps, see the counterexample); entry `M + i` is `-(i + 2)`
provided `B + 2 ≤ 2^31`; under those bounds every marker is exactly `-1`, `≥ 1`,
or `≤ -2`, the `≤ -2` markers sit exactly at the boundary-loop positions, and
`-(marker) - 2` recovers the loop index. -/
theorem c1_facet_marker_encoding (mk : Option (List Int)) (M B : Nat)
    (hmk : ∀ mks, mk = some mks → mks.length = M ∧ ∀ v ∈ mks, v ≤ 2147483646)
    (hB : (B : Int) + 2 ≤ 2147483648) :
    (buildFacetMarkers mk M B).length = M + B ∧
    (∀ i, i < M → (buildFacetMarkers mk M B).getD i 0 =
      (match mk with
       | none => -1
       | some mks => if mks.getD i 0 < 0 then -1 else mks.getD i 0 + 1)) ∧
    (∀ i, i < B → (buildFacetMarkers mk M B).getD (M + i) 0 = -((i : Int) + 2)) ∧
    (∀ j, j < M + B → (buildFacetMarkers mk M B).getD j 0 = -1 ∨
        1 ≤ (buildFacetMarkers mk M B).getD j 0 ∨
        (buildFacetMarkers mk M B).getD j 0 ≤ -2) ∧
    (∀ i, i < B → -((buildFacetMarkers mk M B).getD (M + i) 0) - 2 = (i : Int)) ∧
    (∀ j, j < M → ¬ (buildFacetMarkers mk M B).getD j 0 ≤ -2) := by
  have hmesh : ∀ i, i < M → (buildFacetMarkers mk M B).getD i 0 =
      (match mk with
       | none => -1
       | some mks => if mks.getD i 0 < 0 then -1 else mks.getD i 0 + 1) := by
    intro i hi
    rw [buildFacetMarkers_mesh mk M B i hi]
    cases mk with
    | none => rfl
    | some mks =>
      obtain ⟨hlen, hbound⟩ := hmk mks rfl
      simp only
      by_cases hneg : mks.getD i 0 < 0
      · simp only [if_pos hneg]
      · simp only [if_neg hneg]
        have hmem : mks.getD i 0 ≤ 2147483646 := by
          have hi' : i < mks.length := by omega
          rw [List.getD_eq_getElem mks 0 hi']
          exact hbound _ (mks.getElem_mem hi')
        exact wrap32_eq_self _ (by omega) (by omega)
  have hloop : ∀ i, i < B →
      (buildFacetMarkers mk M B).getD (M + i) 0 = -((i : Int) + 2) := by
    intro i hi
    rw [buildFacetMarkers_loop mk M B i hi]
    have : (i : Int) < (B : Int) := by exact_mod_cast hi
    exact wrap32_eq_self _ (by omega) (by omega)
  refine ⟨buildFacetMarkers_length mk M B, hmesh, hloop, ?_, ?_, ?_⟩
  · intro j hj
    by_cases hjM : j < M
    · have := hmesh j hjM
      cases mk with
      | none => simp only at this; omega
      | some mks =>
        simp only at this
        by_cases hneg : mks.getD j 0 < 0
        · rw [if_pos hneg] at this; omega
        · rw [if_neg hneg] at this; omega
    · have hiB : j - M < B := by omega
      have := hloop (j - M) hiB
      have hjeq : M + (j - M) = j := by omega
      rw [hjeq] at this
      omega
  · intro i hi
    have := hloop i hi
    omega
  · intro j hj
    have := hmesh j hj
    cases mk with
    | none => simp only at this; omega
    | some mks =>
      simp only at this
      by_cases hneg : mks.getD j 0 < 0
      · rw [if_pos hneg] at this; omega
      · rw [if_neg hneg] at this; omega

/-- Claim C1, counterexample to the claim as stated: with a single mesh facet
whose raw marker is `2^31 - 1` (a value an `int32` marker array can hold), the C
`int` increment wraps, so the entry is `-2^31` - not `raw + 1`, not `-1`, and not
`≥ 1`; it even lands in the `≤ -2` boundary-loop namespace. -/
theorem c1_facet_marker_encoding_counterexample :
    (buildFacetMarkers (some [(2147483647 : Int)]) 1 1).getD 0 0 = -2147483648 ∧
    ¬ (buildFacetMarkers (some [(2147483647 : Int)]) 1 1).getD 0 0 =
        (2147483647 : Int) + 1 ∧
    ¬ ((buildFacetMarkers (some [(2147483647 : Int)]) 1 1).getD 0 0 = -1 ∨
        1 ≤ (buildFacetMarkers (some [(2147483647 : Int)]) 1 1).getD 0 0) ∧
    (buildFacetMarkers (some [(2147483647 : Int)]) 1 1).getD 0 0 ≤ -2 := by
  decide

/-- Claim C1, witness: the amended theorem applied to the concrete input
`markers = [5, -3]`, `M = 2`, `B = 2`. -/
theorem c1_facet_marker_encoding_witness :
    (buildFacetMarkers (some [(5 : Int), -3]) 2 2).length = 2 + 2 ∧
    (buildFacetMarkers (some [(5 : Int), -3]) 2 2).getD 0 0 = 6 ∧
    (buildFacetMarkers (some [(5 : Int), -3]) 2 2).getD 1 0 = -1 ∧
    (buildFacetMarkers (some [(5 : Int), -3]) 2 2).getD 2 0 = -2 := by
  have h := c1_facet_marker_encoding (some [(5 : Int), -3]) 2 2
    (by intro mks hm; cases hm; exact ⟨rfl, by decide⟩) (by decide)
  refine ⟨h.1, ?_, ?_, ?_⟩
  · have := h.2.1 0 (by omega)
    simpa using this
  · have := h.2.1 1 (by omega)
    simpa using this
  · have := h.2.2.1 0 (by omega)
    simpa using this

/-! ## Boundary Face Extractor (tetwrap.cpp:109-156, `compute_boundary_face_tris`) -/

/-- The fixed local-face pattern table of `compute_boundary_face_tris`
(tetwrap.cpp:125-130): row `lf` lists the local corner indices of the face
opposite corner `lf`. -/
def faces_of_tet : List (List Nat) := [[1, 2, 3], [0, 3, 2], [0, 1, 3], [0, 2, 1]]

/-- The triangle emitted for tetrahedron row `trow` and local face `lf`:
`(tets(i,p0), tets(i,p1), tets(i,p2))` in the pattern's (unsorted) order. -/
def rawTri (trow : List Int) (lf : Nat) : List Int :=
  (faces_of_tet.getD lf []).map (fun p => trow.getD p 0)

/-- The boundary faces one tetrahedron contributes: local faces `0..3` in order,
keeping those whose neighbor entry is negative. -/
def rowBoundaryFaces (trow nrow : List Int) : List (List Int) :=
  (List.range 4).filterMap (fun lf =>
    if nrow.getD lf 0 < 0 then some (rawTri trow lf) else none)

/-- Pass 2 of `compute_boundary_face_tris`: walk tetrahedra in index order,
emitting each row's boundary faces.  (Pass 1 of the source only sizes the
allocation; its agreement with the emitted count is the length theorem below.) -/
def fillBoundary : List (List Int) → List (List Int) → List (List Int)
  | trow :: ts, nrow :: ns => rowBoundaryFaces trow nrow ++ fillBoundary ts ns
  | _, _ => []

/-- `compute_boundary_face_tris` (tetwrap.cpp:109-156): shape checks in source
order, then the two-pass extraction. -/
def compute_boundary_face_tris (tets nbrs : NpArr Int) : Except String (NpArr Int) :=
  match tets with
  | .twoD tc trows =>
    if tc ≠ 4 then .error "tets must have shape (T,4)"
    else
      match nbrs with
      | .twoD nc nrows =>
        if nc ≠ 4 then .error "neighbors must have shape (T,4)"
        else if trows.length ≠ nrows.length then
          .error "tets and neighbors must have same length"
        else .ok (.twoD 3 (fillBoundary trows nrows))
      | _ => .error "neighbors must have shape (T,4)"
  | _ => .error "tets must have shape (T,4)"

/-- The spec's description of the output: for every pair `(i, lf)` in ascending
order, the pattern triangle whenever `neighbors(i, lf) < 0`. -/
def boundaryFacesSpec (trows nrows : List (List Int)) : List (List Int) :=
  (List.range trows.length).flatMap (fun i =>
    (List.range 4).filterMap (fun lf =>
      if (nrows.getD i []).getD lf 0 < 0 then some (rawTri (trows.getD i []) lf)
      else none))

/-- The spec's count: the number of `(tetrahedron, local-face)` pairs whose
adjacency entry is negative. -/
def negNeighborPairCount (nrows : List (List Int)) : Nat :=
  ((List.range nrows.length).flatMap (fun i =>
    (List.range 4).map (fun lf => (i, lf)))).countP
    (fun p => decide ((nrows.getD p.1 []).getD p.2 0 < 0))

theorem countP_flatMap {α β : Type} (l : List α) (g : α → List β) (P : β → Bool) :
    ((l.flatMap g).countP P) = (l.map (fun a => (g a).countP P)).sum := by
  induction l with
  | nil => simp
  | cons a l ih => simp [List.countP_append, ih]

theorem negNeighborPairCount_cons (nrow : List Int) (nrows : List (List Int)) :
    negNeighborPairCount (nrow :: nrows) =
      ((List.range 4).countP (fun lf => decide (nrow.getD lf 0 < 0)))
        + negNeighborPairCount nrows := by
  unfold negNeighborPairCount
  rw [countP_flatMap, countP_flatMap, List.length_cons,
    List.range_succ_eq_map nrows.length]
  simp only [List.map_cons, List.map_map, List.sum_cons]
  congr 1

theorem length_rowBoundaryFaces (trow nrow : List Int) :
    (rowBoundaryFaces trow nrow).length =
      (List.range 4).countP (fun lf => decide (nrow.getD lf 0 < 0)) := by
  unfold rowBoundaryFaces
  induction (List.range 4) with
  | nil => rfl
  | cons lf rest ih =>
    simp only [List.filterMap_cons, List.countP_cons]
    by_cases h : nrow.getD lf 0 < 0
    · rw [if_pos h, if_pos (by simpa using h)]
      rw [List.length_cons, ih]
    · rw [if_neg h, if_neg (by simpa using h)]
      rw [ih, Nat.add_zero]

theorem fillBoundary_length (trows nrows : List (List Int))
    (h : trows.length = nrows.length) :
    (fillBoundary trows nrows).length = negNeighborPairCount nrows := by
  induction trows generalizing nrows with
  | nil =>
    cases nrows with
    | nil => rfl
    | cons _ _ => simp at h
  | cons trow ts ih =>
    cases nrows with
    | nil => simp at h
    | cons nrow ns =>
      simp only [fillBoundary, List.length_append, negNeighborPairCount_cons,
        length_rowBoundaryFaces]
      rw [ih ns (by simpa using h)]

theorem boundaryFacesSpec_cons (trow nrow : List Int) (ts ns : List (List Int)) :
    boundaryFacesSpec (trow :: ts) (nrow :: ns) =
      rowBoundaryFaces trow nrow ++ boundaryFacesSpec ts ns := by
  unfold boundaryFacesSpec
  rw [List.length_cons, List.range_succ_eq_map, List.flatMap_cons,
    List.flatMap_map]
  rfl

theorem fillBoundary_eq_spec (trows nrows : List (List Int))
    (h : trows.length = nrows.length) :
    fillBoundary trows nrows = boundaryFacesSpec trows nrows := by
  induction trows generalizing nrows with
  | nil =>
    cases nrows with
    | nil => rfl
    | cons _ _ => simp at h
  | cons trow ts ih =>
    cases nrows with
    | nil => simp at h
    | cons nrow ns =>
      show rowBoundaryFaces trow nrow ++ fillBoundary ts ns = _
      rw [boundaryFacesSpec_cons, ih ns (by simpa using h)]

/-- Claim C2: on `(T,4)` tetrahedra and `(T,4)` neighbors of equal length the
extractor succeeds and returns exactly the triangles of the ascending
`(tetrahedron, local face)` enumeration - pattern rows `(1,2,3), (0,3,2),
(0,1,3), (0,2,1)` applied at every pair with a negative neighbor entry - and
the number of returned triangles equals the number of such pairs. -/
theorem c2_boundary_face_extractor (trows nrows : List (List Int))
    (h : trows.length = nrows.length) :
    compute_boundary_face_tris (.twoD 4 trows) (.twoD 4 nrows) =
      .ok (.twoD 3 (boundaryFacesSpec trows nrows)) ∧
    (boundaryFacesSpec trows nrows).length = negNeighborPairCount nrows := by
  constructor
  · simp only [compute_boundary_face_tris]
    rw [if_neg (by simp), if_neg (by simp), if_neg (by omega)]
    rw [fillBoundary_eq_spec trows nrows h]
  · rw [← fillBoundary_eq_spec trows nrows h, fillBoundary_length trows nrows h]

/-- Claim C2, witness: a single tetrahedron `[0,1,2,3]` with no neighbors yields
its four pattern faces in order, and the count matches. -/
theorem c2_boundary_face_extractor_witness :
    compute_boundary_face_tris (.twoD 4 [[0, 1, 2, 3]]) (.twoD 4 [[-1, -1, -1, -1]]) =
      .ok (.twoD 3 [[1, 2, 3], [0, 3, 2], [0, 1, 3], [0, 2, 1]]) ∧
    negNeighborPairCount [[-1, -1, -1, -1]] = 4 := by
  have h := c2_boundary_face_extractor [[0, 1, 2, 3]] [[-1, -1, -1, -1]] (by rfl)
  refine ⟨?_, ?_⟩
  · rw [h.1, show boundaryFacesSpec [[0, 1, 2, 3]] [[-1, -1, -1, -1]] =
      [[1, 2, 3], [0, 3, 2], [0, 1, 3], [0, 2, 1]] from by decide]
  · rw [← h.2]
    decide

/-! ## Canonical face keys and the marker reconciler (tetwrap.cpp:341-352, 379-392) -/

/-- Ascending sort of three ints, the effect of `std::sort` on the
`std::array<int, 3>` key (tetwrap.cpp:349, 385). -/
def sort3 (a b c : Int) : List Int :=
  if a ≤ b then
    if b ≤ c then [a, b, c]
    else if a ≤ c then [a, c, b]
    else [c, a, b]
  else
    if a ≤ c then [b, a, c]
    else if b ≤ c then [b, c, a]
    else [c, b, a]

theorem sort3_sorted (a b c : Int) : (sort3 a b c).Sorted (· ≤ ·) := by
  unfold sort3
  split_ifs <;> simp [List.sorted_cons] <;> omega

theorem sort3_perm (a b c : Int) : (sort3 a b c).Perm [a, b, c] := by
  unfold sort3
  split_ifs
  · exact List.Perm.refl _
  · exact List.Perm.cons a (List.Perm.swap b c [])
  · exact List.Perm.trans (List.Perm.swap a c [b])
      (List.Perm.cons a (List.Perm.swap b c []))
  · exact List.Perm.swap a b [c]
  · exact List.Perm.trans (List.Perm.cons b (List.Perm.swap a c []))
      (List.Perm.swap a b [c])
  · exact List.Perm.trans (List.Perm.swap b c [a])
      (List.Perm.trans (List.Perm.cons b (List.Perm.swap a c []))
        (List.Perm.swap a b [c]))

/-- The canonical face key of a triangle row: its first three entries (exactly
the three reads the C++ performs), sorted ascending. -/
def canonicalKey (r : List Int) : List Int :=
  sort3 (r.getD 0 0) (r.getD 1 0) (r.getD 2 0)

theorem canonicalKey_sorted (r : List Int) : (canonicalKey r).Sorted (· ≤ ·) :=
  sort3_sorted _ _ _

theorem canonicalKey_perm_self (r : List Int) (h : r.length = 3) :
    (canonicalKey r).Perm r := by
  match r, h with
  | [a, b, c], _ => exact sort3_perm a b c

/-- `std::map::operator[]` assignment: replace the value of an existing key,
else append the binding. -/
def mapUpsert : List (List Int × Int) → List Int → Int → List (List Int × Int)
  | [], k, v => [(k, v)]
  | (k1, v1) :: rest, k, v =>
    if k1 = k then (k1, v) :: rest else (k1, v1) :: mapUpsert rest k v

/-- `std::map::find` followed by dereference: the value bound to a key. -/
def mapFind : List (List Int × Int) → List Int → Option Int
  | [], _ => none
  | (k1, v1) :: rest, k => if k1 = k then some v1 else mapFind rest k

/-- The canonical key of output face `i` of the flat `trifacelist`. -/
def trifaceKey (tfl : List Int) (i : Nat) : List Int :=
  canonicalKey [tfl.getD (3 * i) 0, tfl.getD (3 * i + 1) 0, tfl.getD (3 * i + 2) 0]

/-- `triface_marker_map` (tetwrap.cpp:341-352): one forward pass over the output
faces, `operator[]` assigning each face's marker under its canonical key. -/
def buildTrifaceMap (cnt : Nat) (tfl tml : List Int) : List (List Int × Int) :=
  (List.range cnt).foldl (fun m i => mapUpsert m (trifaceKey tfl i) (tml.getD i 0)) []

/-- Marker resolution for one derived boundary face (tetwrap.cpp:383-387):
look the canonical key up, defaulting to `0`. -/
def reconcileOne (tmap : List (List Int × Int)) (r : List Int) : Int :=
  (mapFind tmap (canonicalKey r)).getD 0

/-- The whole per-boundary-face marker array (tetwrap.cpp:379-389). -/
def reconcileMarkers (tmap : List (List Int × Int)) (rows : List (List Int)) :
    List Int :=
  rows.map (reconcileOne tmap)

/-- The spec's description of the map content: the marker of the *last* output
face whose canonical key matches (later duplicates overwrite earlier). -/
def lastMarkerSpec (cnt : Nat) (tfl tml : List Int) (k : List Int) : Option Int :=
  (((List.range cnt).filter (fun i => decide (trifaceKey tfl i = k))).map
    (fun i => tml.getD i 0)).getLast?

theorem mapFind_mapUpsert (m : List (List Int × Int)) (k0 : List Int) (v : Int)
    (k : List Int) :
    mapFind (mapUpsert m k0 v) k = if k0 = k then some v else mapFind m k := by
  induction m with
  | nil =>
    by_cases h : k0 = k
    · simp [mapUpsert, mapFind, h]
    · simp [mapUpsert, mapFind, h]
  | cons p rest ih =>
    obtain ⟨k1, v1⟩ := p
    by_cases h1 : k1 = k0
    · subst h1
      by_cases h2 : k1 = k
      · simp [mapUpsert, mapFind, h2]
      · simp [mapUpsert, mapFind, h2]
    · by_cases h2 : k1 = k
      · subst h2
        have hk : ¬ k0 = k1 := fun hh => h1 hh.symm
        simp [mapUpsert, mapFind, h1, hk]
      · simp [mapUpsert, mapFind, h1, h2, ih]

theorem getLast?_cons_or {α : Type} (a : α) (l : List α) :
    (a :: l).getLast? = l.getLast?.or (some a) := by
  induction l generalizing a with
  | nil => rfl
  | cons b t ih =>
    rw [List.getLast?_cons_cons, ih b]
    cases h : t.getLast? with
    | none => rfl
    | some x => rfl

theorem mapFind_foldl (ps : List (List Int × Int)) (m0 : List (List Int × Int))
    (k : List Int) :
    mapFind (ps.foldl (fun m p => mapUpsert m p.1 p.2) m0) k =
      (((ps.filter (fun p => decide (p.1 = k))).map Prod.snd).getLast?).or
        (mapFind m0 k) := by
  induction ps generalizing m0 with
  | nil => simp
  | cons p rest ih =>
    rw [List.foldl_cons, ih]
    by_cases h : p.1 = k
    · rw [List.filter_cons_of_pos (by simpa using h), List.map_cons,
        getLast?_cons_or, mapFind_mapUpsert, if_pos h, Option.or_assoc,
        Option.or_some]
    · rw [List.filter_cons_of_neg (by simpa using h), mapFind_mapUpsert, if_neg h]

theorem mapFind_buildTrifaceMap (cnt : Nat) (tfl tml : List Int) (k : List Int) :
    mapFind (buildTrifaceMap cnt tfl tml) k = lastMarkerSpec cnt tfl tml k := by
  unfold buildTrifaceMap
  have hfold : (List.range cnt).foldl
      (fun m i => mapUpsert m (trifaceKey tfl i) (tml.getD i 0)) [] =
      ((List.range cnt).map (fun i => (trifaceKey tfl i, tml.getD i 0))).foldl
        (fun m p => mapUpsert m p.1 p.2) [] := by
    rw [List.foldl_map]
  rw [hfold, mapFind_foldl]
  show (((((List.range cnt).map _).filter _).map Prod.snd).getLast?).or none = _
  rw [Option.or_none, List.filter_map, List.map_map]
  rfl

/-- Claim C3: the Marker Reconciler assigns each derived boundary face the
marker of the last generator output face with the same canonical (sorted)
vertex triple - the map is built by a single forward pass with last-wins
overwrites - and `0` to every face whose key is absent from the map. -/
theorem c3_marker_reconciler (cnt : Nat) (tfl tml : List Int)
    (rows : List (List Int)) :
    reconcileMarkers (buildTrifaceMap cnt tfl tml) rows =
      rows.map (fun r => (lastMarkerSpec cnt tfl tml (canonicalKey r)).getD 0) := by
  unfold reconcileMarkers
  apply List.map_congr_left
  intro r _
  unfold reconcileOne
  rw [mapFind_buildTrifaceMap]

/-- Claim C4: triangles that are permutations of the same three vertex indices
have identical canonical keys, hence identical reconciled markers, while the
extractor itself emits triangles in the raw (unsorted) local-face-pattern
order. -/
theorem c4_canonical_key (t u : List Int) (h3 : t.length = 3) (hp : t.Perm u) :
    canonicalKey t = canonicalKey u ∧
    (∀ tmap, reconcileOne tmap t = reconcileOne tmap u) ∧
    (∀ trows nrows : List (List Int), trows.length = nrows.length →
      compute_boundary_face_tris (.twoD 4 trows) (.twoD 4 nrows) =
        .ok (.twoD 3 (boundaryFacesSpec trows nrows))) := by
  have hu3 : u.length = 3 := by rw [← hp.length_eq, h3]
  have hkey : canonicalKey t = canonicalKey u := by
    refine List.eq_of_perm_of_sorted ?_ (canonicalKey_sorted t) (canonicalKey_sorted u)
    exact ((canonicalKey_perm_self t h3).trans hp).trans
      (canonicalKey_perm_self u hu3).symm
  refine ⟨hkey, fun tmap => ?_, fun trows nrows h => ?_⟩
  · unfold reconcileOne
    rw [hkey]
  · simp only [compute_boundary_face_tris]
    rw [if_neg (by simp), if_neg (by simp), if_neg (by omega)]
    rw [fillBoundary_eq_spec trows nrows h]

/-- Claim C4, witness: the theorem applied to the concrete permuted triangles
`[1,2,3]` and `[3,1,2]` and a concrete marker map. -/
theorem c4_canonical_key_witness :
    canonicalKey [1, 2, 3] = canonicalKey [3, 1, 2] ∧
    reconcileOne [([1, 2, 3], 7)] [1, 2, 3] =
      reconcileOne [([1, 2, 3], 7)] [3, 1, 2] := by
  have h := c4_canonical_key [1, 2, 3] [3, 1, 2] (by decide) (by decide)
  exact ⟨h.1, h.2.1 [([1, 2, 3], 7)]⟩

/-! ## Configuration Normalizer (tetwrap.cpp:274-309) -/

/-- The `'\0'` terminator pushed onto the switch buffer. -/
def nulChar : Char := Char.ofNat 0

/-- The configuration payload kinds `tetrahedralize_core` accepts: a Python
`str`, a `bytes` object, or a 1-D byte array (all three yield a character
sequence), or anything else. -/
inductive Switches where
  | str (s : List Char)
  | bytes (s : List Char)
  | byteArr (s : List Char)
  | other
  deriving DecidableEq

/-- The character content of an accepted payload. -/
def Switches.content? : Switches → Option (List Char)
  | .str s => some s
  | .bytes s => some s
  | .byteArr s => some s
  | .other => none

/-- The echoed `res.switches` (tetwrap.cpp:327-328): the payload text when it
was a `str`, `""` otherwise. -/
def echoSwitches : Switches → String
  | .str s => String.mk s
  | _ => ""

/-- The switch-buffer construction and normalization (tetwrap.cpp:274-309):
NUL-terminate the accepted payload; when boundary faces are requested, scan the
buffer up to the first NUL for the `'n'` and `'f'` flags and, if either is
missing, pop the trailing NUL, append the missing flag(s) (`'n'` before `'f'`)
and re-terminate. -/
def buildSwitchBuffer (p : Switches) (compute_boundary_faces : Bool) :
    Except String (List Char) :=
  match Switches.content? p with
  | none => .error "tetgen_switches must be str, bytes, or 1D byte array"
  | some s =>
    let sw := s ++ [nulChar]
    if compute_boundary_faces then
      let pre := sw.takeWhile (fun c => decide (c ≠ nulChar))
      if ¬ ('n' ∈ pre) ∨ ¬ ('f' ∈ pre) then
        let sw1 := if sw ≠ [] ∧ sw.getLast? = some nulChar then sw.dropLast else sw
        .ok (sw1 ++ (if 'n' ∈ pre then [] else ['n'])
          ++ (if 'f' ∈ pre then [] else ['f']) ++ [nulChar])
      else .ok sw
    else .ok sw

theorem takeWhile_append_nul (s : List Char) (h : nulChar ∉ s) :
    (s ++ [nulChar]).takeWhile (fun c => decide (c ≠ nulChar)) = s := by
  induction s with
  | nil =>
    show List.takeWhile _ [nulChar] = []
    rw [List.takeWhile_cons]
    simp
  | cons c rest ih =>
    have hc : c ≠ nulChar := fun e => h (by simp [e])
    have hrest : nulChar ∉ rest := fun hm => h (by simp [hm])
    show List.takeWhile _ (c :: (rest ++ [nulChar])) = c :: rest
    rw [List.takeWhile_cons, if_pos (by simpa using hc), ih hrest]

theorem buildSwitchBuffer_norm (p : Switches) (s : List Char)
    (hs : Switches.content? p = some s) (hn : nulChar ∉ s) :
    buildSwitchBuffer p true =
      .ok (s ++ (if 'n' ∈ s then [] else ['n']) ++ (if 'f' ∈ s then [] else ['f'])
        ++ [nulChar]) := by
  have hlast : (s ++ [nulChar]) ≠ [] ∧ (s ++ [nulChar]).getLast? = some nulChar :=
    ⟨by simp, List.getLast?_concat s⟩
  have hpre := takeWhile_append_nul s hn
  unfold buildSwitchBuffer
  rw [hs]
  show (if ¬ ('n' ∈ (s ++ [nulChar]).takeWhile (fun c => decide (c ≠ nulChar)))
          ∨ ¬ ('f' ∈ (s ++ [nulChar]).takeWhile (fun c => decide (c ≠ nulChar))) then
        Except.ok ((if (s ++ [nulChar]) ≠ [] ∧ (s ++ [nulChar]).getLast? = some nulChar
            then (s ++ [nulChar]).dropLast else s ++ [nulChar])
          ++ (if 'n' ∈ (s ++ [nulChar]).takeWhile (fun c => decide (c ≠ nulChar))
              then [] else ['n'])
          ++ (if 'f' ∈ (s ++ [nulChar]).takeWhile (fun c => decide (c ≠ nulChar))
              then [] else ['f'])
          ++ [nulChar])
      else Except.ok (s ++ [nulChar])) = _
  rw [hpre]
  by_cases hmn : 'n' ∈ s
  · by_cases hmf : 'f' ∈ s
    · rw [if_neg (fun hor => Or.elim hor (fun hh => hh hmn) (fun hh => hh hmf)),
        if_pos hmn, if_pos hmf]
      simp
    · rw [if_pos (Or.inr hmf), if_pos hlast, List.dropLast_concat,
        if_pos hmn, if_neg hmf]
  · rw [if_pos (Or.inl hmn), if_pos hlast, List.dropLast_concat, if_neg hmn]

/-- Claim C7: an accepted payload (text, bytes, or 1-D byte array) yields the
NUL-terminated buffer; with boundary-face derivation requested, any of the two
flags `'n'` and `'f'` missing from the payload is appended after the existing
content (every existing character preserved in order), and with both present
the buffer is the payload unchanged (plus the terminator); any other payload
kind is an input-kind error. -/
theorem c7_switch_normalizer (p : Switches) (s : List Char)
    (hs : Switches.content? p = some s) (hn : nulChar ∉ s) :
    buildSwitchBuffer p false = .ok (s ++ [nulChar]) ∧
    buildSwitchBuffer p true =
      .ok (s ++ (if 'n' ∈ s then [] else ['n']) ++ (if 'f' ∈ s then [] else ['f'])
        ++ [nulChar]) ∧
    ('n' ∈ s → 'f' ∈ s → buildSwitchBuffer p true = .ok (s ++ [nulChar])) ∧
    (∀ q : Switches, Switches.content? q = none →
      ∀ b, buildSwitchBuffer q b =
        .error "tetgen_switches must be str, bytes, or 1D byte array") := by
  refine ⟨?_, buildSwitchBuffer_norm p s hs hn, ?_, ?_⟩
  · unfold buildSwitchBuffer
    rw [hs]
    rfl
  · intro hmn hmf
    rw [buildSwitchBuffer_norm p s hs hn, if_pos hmn, if_pos hmf]
    simp
  · intro q hq b
    unfold buildSwitchBuffer
    rw [hq]

/-- Claim C7, witness: the theorem applied to the concrete payloads `"a"`
(both flags appended) and `"nf"` (returned unchanged). -/
theorem c7_switch_normalizer_witness :
    buildSwitchBuffer (.str ['a']) true = .ok ['a', 'n', 'f', nulChar] ∧
    buildSwitchBuffer (.str ['n', 'f']) true = .ok ['n', 'f', nulChar] := by
  have h1 := (c7_switch_normalizer (.str ['a']) ['a'] rfl (by decide)).2.1
  have h2 := c7_switch_normalizer (.str ['n', 'f']) ['n', 'f'] rfl (by decide)
  constructor
  · rw [if_neg (by decide), if_neg (by decide)] at h1
    simpa using h1
  · have := h2.2.2.1 (by decide) (by decide)
    simpa using this

/-! ## Buffer converters (tetwrap.cpp:14-54) and the Output Marshaller
(tetwrap.cpp:321-413).  A null buffer or a non-positive dimension yields the
default-constructed `py::array_t` - a 1-D size-0 array, `NpArr.oneD []`. -/

def to_array_f64 (src : Option (List REAL)) (n m : Int) : NpArr REAL :=
  if src = none ∨ n ≤ 0 ∨ m ≤ 0 then .oneD []
  else .twoD m.toNat ((List.range n.toNat).map fun i =>
    (List.range m.toNat).map fun j => (src.getD []).getD (i * m.toNat + j) 0)

def to_array_i32 (src : Option (List Int)) (n m : Int) : NpArr Int :=
  if src = none ∨ n ≤ 0 ∨ m ≤ 0 then .oneD []
  else .twoD m.toNat ((List.range n.toNat).map fun i =>
    (List.range m.toNat).map fun j => (src.getD []).getD (i * m.toNat + j) 0)

def to_vector_i32 (src : Option (List Int)) (n : Int) : List Int :=
  if src = none ∨ n ≤ 0 then []
  else (List.range n.toNat).map fun i => (src.getD []).getD i 0

def to_vector_f64 (src : Option (List REAL)) (n : Int) : List REAL :=
  if src = none ∨ n ≤ 0 then []
  else (List.range n.toNat).map fun i => (src.getD []).getD i 0

/-- The generator's raw output structure (`tetgenio out`): every buffer may be
null, and each count is a C `int` reported by the generator. -/
structure GenOut where
  numberofpoints : Int
  pointlist : Option (List REAL)
  numberoftetrahedra : Int
  numberofcorners : Int
  tetrahedronlist : Option (List Int)
  numberoftrifaces : Int
  trifacelist : Option (List Int)
  trifacemarkerlist : Option (List Int)
  numberofedges : Int
  edgelist : Option (List Int)
  edgemarkerlist : Option (List Int)
  neighborlist : Option (List Int)
  pointmarkerlist : Option (List Int)
  numberoftetrahedronattributes : Int
  tetrahedronattributelist : Option (List REAL)
  tetrahedronvolumelist : Option (List REAL)
  deriving DecidableEq

/-- The rich result aggregate (the source's `TetwrapIO` struct,
tetwrap.cpp:57-72): every optional field is `none` exactly when the C++ field
holds `py::none()`. -/
structure TetwrapOut where
  points : NpArr REAL
  tets : NpArr Int
  tri_faces : Option (NpArr Int)
  tri_markers : Option (List Int)
  boundary_tri_faces : Option (NpArr Int)
  boundary_tri_markers : Option (List Int)
  edges : Option (NpArr Int)
  edge_markers : Option (List Int)
  neighbors : Option (NpArr Int)
  point_markers : Option (List Int)
  tet_attr : Option (NpArr REAL)
  tet_vol : Option (List REAL)
  corners : Int
  switches : String
  deriving DecidableEq

def marshalPoints (out : GenOut) : NpArr REAL :=
  to_array_f64 out.pointlist out.numberofpoints 3

def marshalTets (out : GenOut) : NpArr Int :=
  to_array_i32 out.tetrahedronlist out.numberoftetrahedra out.numberofcorners

/-- `if (out.numberoftrifaces > 0 && out.trifacelist)` (tetwrap.cpp:331). -/
def marshalTriFaces (out : GenOut) : Option (NpArr Int) :=
  if 0 < out.numberoftrifaces ∧ out.trifacelist ≠ none then
    some (to_array_i32 out.trifacelist out.numberoftrifaces 3)
  else none

def marshalTriMarkers (out : GenOut) : Option (List Int) :=
  if 0 < out.numberoftrifaces ∧ out.trifacelist ≠ none then
    if out.trifacemarkerlist ≠ none then
      some (to_vector_i32 out.trifacemarkerlist out.numberoftrifaces)
    else none
  else none

/-- The canonical-key marker map (tetwrap.cpp:341-352), built only when faces,
their markers, and a positive count are all present; empty otherwise. -/
def trifaceMap (out : GenOut) : List (List Int × Int) :=
  if 0 < out.numberoftrifaces ∧ out.trifacelist ≠ none ∧
      out.trifacemarkerlist ≠ none then
    buildTrifaceMap out.numberoftrifaces.toNat (out.trifacelist.getD [])
      (out.trifacemarkerlist.getD [])
  else []

def marshalEdges (out : GenOut) : Option (NpArr Int) :=
  if 0 < out.numberofedges ∧ out.edgelist ≠ none then
    some (to_array_i32 out.edgelist out.numberofedges 2)
  else none

def marshalEdgeMarkers (out : GenOut) : Option (List Int) :=
  if 0 < out.numberofedges ∧ out.edgelist ≠ none then
    if out.edgemarkerlist ≠ none then
      some (to_vector_i32 out.edgemarkerlist out.numberofedges)
    else none
  else none

/-- `if (out.neighborlist)` - null test only, no count test (tetwrap.cpp:367). -/
def marshalNeighbors (out : GenOut) : Option (NpArr Int) :=
  if out.neighborlist ≠ none then
    some (to_array_i32 out.neighborlist out.numberoftetrahedra 4)
  else none

/-- `if (out.pointmarkerlist)` - null test only (tetwrap.cpp:398). -/
def marshalPointMarkers (out : GenOut) : Option (List Int) :=
  if out.pointmarkerlist ≠ none then
    some (to_vector_i32 out.pointmarkerlist out.numberofpoints)
  else none

def marshalTetAttr (out : GenOut) : Option (NpArr REAL) :=
  if out.tetrahedronattributelist ≠ none ∧ 0 < out.numberoftetrahedronattributes then
    some (to_array_f64 out.tetrahedronattributelist out.numberoftetrahedra
      out.numberoftetrahedronattributes)
  else none

/-- `if (out.tetrahedronvolumelist)` - null test only (tetwrap.cpp:410). -/
def marshalTetVol (out : GenOut) : Option (List REAL) :=
  if out.tetrahedronvolumelist ≠ none then
    some (to_vector_f64 out.tetrahedronvolumelist out.numberoftetrahedra)
  else none

/-- The result aggregate populated from the generator output, parameterized by
the two boundary-face fields filled in by the derivation branch. -/
def baseOut (echo : String) (out : GenOut) (btf : Option (NpArr Int))
    (btm : Option (List Int)) : TetwrapOut :=
  { points := marshalPoints out, tets := marshalTets out,
    tri_faces := marshalTriFaces out, tri_markers := marshalTriMarkers out,
    boundary_tri_faces := btf, boundary_tri_markers := btm,
    edges := marshalEdges out, edge_markers := marshalEdgeMarkers out,
    neighbors := marshalNeighbors out, point_markers := marshalPointMarkers out,
    tet_attr := marshalTetAttr out, tet_vol := marshalTetVol out,
    corners := out.numberofcorners, switches := echo }

/-- The whole output-population phase of `tetrahedralize_core`
(tetwrap.cpp:321-415): marshal every optional quantity, and - when boundary
faces were requested and the neighbors field is non-absent - derive the
boundary faces (which can throw) and reconcile their markers
(`none` when the marker map is empty). -/
def marshal (compute_boundary_faces : Bool) (echo : String) (out : GenOut) :
    Except String TetwrapOut :=
  match compute_boundary_faces, marshalNeighbors out with
  | true, some nbrArr =>
    match compute_boundary_face_tris (marshalTets out) nbrArr with
    | .error m => .error m
    | .ok bf =>
      let btm : Option (List Int) :=
        if trifaceMap out ≠ [] then some (reconcileMarkers (trifaceMap out) bf.rowsOf)
        else none
      .ok (baseOut echo out (some bf) btm)
  | _, _ => .ok (baseOut echo out none none)

/-! ## PLC Assembler and input validation (tetwrap.cpp:159-272), and the core
pipeline. -/

/-- The assembled `tetgenio in` structure: every facet holds exactly one
polygon and no holes in this wrapper, so a facet is modelled by its polygon's
vertex list. -/
structure PLCIn where
  numberofpoints : Nat
  pointlist : List REAL
  facetlist : List (List Int)
  facetmarkerlist : List Int
  deriving DecidableEq

/-- Whether one mesh-facet row has a vertex index outside `[0, N)` among its
three read entries (tetwrap.cpp:195-203). -/
def rowOutOfRange (N : Nat) (row : List Int) : Bool :=
  (List.range 3).any (fun k =>
    decide (row.getD k 0 < 0) || decide ((N : Int) ≤ row.getD k 0))

/-- Index of the first mesh-facet row failing the range check, starting the
count at `s`. -/
def firstBadFacetRow (N : Nat) : List (List Int) → Nat → Option Nat
  | [], _ => none
  | row :: rest, i =>
    if rowOutOfRange N row then some i else firstBadFacetRow N rest (i + 1)

/-- Whether a boundary polygon has a vertex index outside `[0, N)`
(tetwrap.cpp:209-213). -/
def polyOutOfRange (N : Nat) (poly : List Int) : Bool :=
  poly.any (fun vid => decide (vid < 0) || decide ((N : Int) ≤ vid))

/-- First boundary polygon failing a check, with `true` for "fewer than 3
vertices" and `false` for "index out of range" (tetwrap.cpp:204-214). -/
def firstBadPolygon (N : Nat) : List (List Int) → Nat → Option (Nat × Bool)
  | [], _ => none
  | poly :: rest, bi =>
    if poly.length < 3 then some (bi, true)
    else if polyOutOfRange N poly then some (bi, false)
    else firstBadPolygon N rest (bi + 1)

/-- The part of `tetrahedralize_core` after the marker-array checks
(tetwrap.cpp:191-309): `N <= 0`, per-row and per-polygon range checks, PLC
assembly, switch-buffer construction and normalization.  (The C++ `M < 0` check
is vacuous - a numpy shape is never negative - and has no counterpart here.) -/
def prepareRest (vrows : List (List REAL)) (frows : List (List Int))
    (mk : Option (List Int)) (boundary_facets : List (List Int))
    (tetgen_switches : Switches) (compute_boundary_faces : Bool) :
    Except String (PLCIn × List Char) :=
  if vrows.length = 0 then .error "vertices: N <= 0"
  else
    match firstBadFacetRow vrows.length frows 0 with
    | some i => .error ("mesh_facets index out of range at row " ++ toString i)
    | none =>
      match firstBadPolygon vrows.length boundary_facets 0 with
      | some (bi, true) =>
        .error ("boundary facet has fewer than 3 vertices: polygon " ++ toString bi)
      | some (bi, false) =>
        .error ("boundary_facets index out of range at polygon " ++ toString bi)
      | none =>
        match buildSwitchBuffer tetgen_switches compute_boundary_faces with
        | .error m => .error m
        | .ok sw =>
          .ok ({ numberofpoints := vrows.length,
                 pointlist := vrows.flatMap (fun r =>
                   (List.range 3).map (fun j => r.getD j 0)),
                 facetlist := frows.map (fun r =>
                   (List.range 3).map (fun k => r.getD k 0)) ++ boundary_facets,
                 facetmarkerlist := buildFacetMarkers mk frows.length
                   boundary_facets.length }, sw)

/-- `if (vertices.ndim() != 2 || vertices.shape(1) != 3)` (tetwrap.cpp:168). -/
def checkVertices (v : NpArr REAL) : Except String (List (List REAL)) :=
  match v with
  | .twoD vc vrows =>
    if vc ≠ 3 then .error "vertices must have shape (N,3)" else .ok vrows
  | _ => .error "vertices must have shape (N,3)"

/-- `if (mesh_facets.ndim() != 2 || mesh_facets.shape(1) != 3)` (tetwrap.cpp:170). -/
def checkMeshFacets (f : NpArr Int) : Except String (List (List Int)) :=
  match f with
  | .twoD fc frows =>
    if fc ≠ 3 then .error "mesh_facets must have shape (M,3)" else .ok frows
  | _ => .error "mesh_facets must have shape (M,3)"

/-- The marker-array checks (tetwrap.cpp:180-189): if supplied, it must be 1-D
and of length `M`. -/
def checkMarkers (mkObj : Option (NpArr Int)) (M : Nat) :
    Except String (Option (List Int)) :=
  match mkObj with
  | none => .ok none
  | some (.oneD d) =>
    if d.length ≠ M then
      .error "mesh_facet_markers length must match number of mesh facets"
    else .ok (some d)
  | some _ => .error "mesh_facet_markers must be a 1D array"

/-- Everything `tetrahedralize_core` does before invoking the generator
(tetwrap.cpp:166-309), in source order: shape checks, boundary-count check,
marker-array checks, then `prepareRest`. -/
def prepare (vertices : NpArr REAL) (mesh_facets : NpArr Int)
    (mesh_facet_markers_obj : Option (NpArr Int))
    (boundary_facets : List (List Int)) (tetgen_switches : Switches)
    (compute_boundary_faces : Bool) : Except String (PLCIn × List Char) :=
  match checkVertices vertices with
  | .error m => .error m
  | .ok vrows =>
    match checkMeshFacets mesh_facets with
    | .error m => .error m
    | .ok frows =>
      if boundary_facets.length < 1 then
        .error "boundary_facets must contain at least one polygon (list of vertex indices)"
      else
        match checkMarkers mesh_facet_markers_obj frows.length with
        | .error m => .error m
        | .ok mk =>
          prepareRest vrows frows mk boundary_facets tetgen_switches
            compute_boundary_faces

/-- `tetrahedralize_core` (tetwrap.cpp:159-416) with the opaque generator as a
parameter: validate and assemble, invoke the generator (wrapping any failure as
"TetGen failed: ..."), then marshal the output. -/
def tetrahedralize_core (gen : PLCIn → List Char → Except String GenOut)
    (vertices : NpArr REAL) (mesh_facets : NpArr Int)
    (mesh_facet_markers_obj : Option (NpArr Int))
    (boundary_facets : List (List Int)) (tetgen_switches : Switches)
    (compute_boundary_faces : Bool) : Except String TetwrapOut :=
  match prepare vertices mesh_facets mesh_facet_markers_obj boundary_facets
      tetgen_switches compute_boundary_faces with
  | .error m => .error m
  | .ok (plc, sw) =>
    match gen plc sw with
    | .error e => .error ("TetGen failed: " ++ e)
    | .ok out => marshal compute_boundary_faces (echoSwitches tetgen_switches) out

/-- The legacy entry point (tetwrap.cpp:439-453): run the core with no facet
markers and boundary-face derivation at its default `true`, and return only
`(points, tets)`. -/
def build_volume_mesh (gen : PLCIn → List Char → Except String GenOut)
    (vertices : NpArr REAL) (mesh_facets : NpArr Int)
    (boundary_facets : List (List Int)) (tetgen_switches : Switches) :
    Except String (NpArr REAL × NpArr Int) :=
  match tetrahedralize_core gen vertices mesh_facets none boundary_facets
      tetgen_switches true with
  | .error m => .error m
  | .ok io => .ok (io.points, io.tets)

/-- The claim's list of Shape/Range violations, stated declaratively. -/
def hasShapeRangeViolation (vertices : NpArr REAL) (mesh_facets : NpArr Int)
    (mkObj : Option (NpArr Int)) (boundary_facets : List (List Int)) : Prop :=
  (∀ rows, vertices ≠ .twoD 3 rows) ∨
  (∀ rows, mesh_facets ≠ .twoD 3 rows) ∨
  boundary_facets = [] ∨
  vertices.rowsOf = [] ∨
  (∃ i, i < mesh_facets.rowsOf.length ∧ ∃ k, k < 3 ∧
    ((mesh_facets.rowsOf.getD i []).getD k 0 < 0 ∨
      (vertices.rowsOf.length : Int) ≤ (mesh_facets.rowsOf.getD i []).getD k 0)) ∨
  (∃ bi, bi < boundary_facets.length ∧ (boundary_facets.getD bi []).length < 3) ∨
  (∃ bi, bi < boundary_facets.length ∧ ∃ vid ∈ boundary_facets.getD bi [],
    vid < 0 ∨ (vertices.rowsOf.length : Int) ≤ vid) ∨
  (∃ arr, mkObj = some arr ∧ ∀ d, arr ≠ .oneD d) ∨
  (∃ d, mkObj = some (.oneD d) ∧ d.length ≠ mesh_facets.rowsOf.length)

theorem rowOutOfRange_iff (N : Nat) (row : List Int) :
    rowOutOfRange N row = true ↔
      ∃ k, k < 3 ∧ (row.getD k 0 < 0 ∨ (N : Int) ≤ row.getD k 0) := by
  unfold rowOutOfRange
  rw [List.any_eq_true]
  constructor
  · rintro ⟨k, hk, hor⟩
    exact ⟨k, List.mem_range.mp hk, by simpa using hor⟩
  · rintro ⟨k, hk, hor⟩
    exact ⟨k, List.mem_range.mpr hk, by simpa using hor⟩

theorem polyOutOfRange_iff (N : Nat) (poly : List Int) :
    polyOutOfRange N poly = true ↔
      ∃ vid ∈ poly, vid < 0 ∨ (N : Int) ≤ vid := by
  unfold polyOutOfRange
  rw [List.any_eq_true]
  constructor
  · rintro ⟨vid, hv, hor⟩
    exact ⟨vid, hv, by simpa using hor⟩
  · rintro ⟨vid, hv, hor⟩
    exact ⟨vid, hv, by simpa using hor⟩

theorem firstBadFacetRow_eq_none_iff (N : Nat) (rows : List (List Int)) (s : Nat) :
    firstBadFacetRow N rows s = none ↔
      ∀ row ∈ rows, rowOutOfRange N row = false := by
  induction rows generalizing s with
  | nil => simp [firstBadFacetRow]
  | cons row rest ih =>
    unfold firstBadFacetRow
    by_cases h : rowOutOfRange N row
    · rw [if_pos h]
      simp [h]
    · rw [if_neg h, ih (s + 1)]
      have h' : rowOutOfRange N row = false := by simpa using h
      simp [h']

theorem firstBadPolygon_eq_none_iff (N : Nat) (b : List (List Int)) (s : Nat) :
    firstBadPolygon N b s = none ↔
      ∀ poly ∈ b, ¬ (poly.length < 3) ∧ polyOutOfRange N poly = false := by
  induction b generalizing s with
  | nil => simp [firstBadPolygon]
  | cons poly rest ih =>
    unfold firstBadPolygon
    by_cases h3 : poly.length < 3
    · rw [if_pos h3]
      simp [h3]
    · rw [if_neg h3]
      by_cases hr : polyOutOfRange N poly
      · rw [if_pos hr]
        simp [h3, hr]
      · rw [if_neg hr, ih (s + 1)]
        have hr' : polyOutOfRange N poly = false := by simpa using hr
        have h3' : 3 ≤ poly.length := by omega
        simp [hr', h3']

theorem checkVertices_eq_ok (v : NpArr REAL) (rows : List (List REAL)) :
    checkVertices v = .ok rows ↔ v = .twoD 3 rows := by
  cases v with
  | oneD d => simp [checkVertices]
  | other => simp [checkVertices]
  | twoD c r =>
    by_cases h : c ≠ 3
    · simp [checkVertices, h]
    · have h' := not_not.mp h
      subst h'
      simp [checkVertices, eq_comm]

theorem checkMeshFacets_eq_ok (f : NpArr Int) (rows : List (List Int)) :
    checkMeshFacets f = .ok rows ↔ f = .twoD 3 rows := by
  cases f with
  | oneD d => simp [checkMeshFacets]
  | other => simp [checkMeshFacets]
  | twoD c r =>
    by_cases h : c ≠ 3
    · simp [checkMeshFacets, h]
    · have h' := not_not.mp h
      subst h'
      simp [checkMeshFacets, eq_comm]

theorem checkMarkers_eq_ok (mkObj : Option (NpArr Int)) (M : Nat)
    (mk : Option (List Int)) :
    checkMarkers mkObj M = .ok mk ↔
      (mkObj = none ∧ mk = none) ∨
      (∃ d, mkObj = some (.oneD d) ∧ d.length = M ∧ mk = some d) := by
  cases mkObj with
  | none => simp [checkMarkers, eq_comm]
  | some arr =>
    cases arr with
    | oneD d =>
      by_cases h : d.length ≠ M
      · simp [checkMarkers, h]
      · have h' := not_not.mp h
        subst h'
        simp [checkMarkers, eq_comm]
    | twoD c r => simp [checkMarkers]
    | other => simp [checkMarkers]

theorem prepareRest_ok_inv (vrows : List (List REAL)) (frows : List (List Int))
    (mk : Option (List Int)) (b : List (List Int)) (p : Switches) (cbf : Bool)
    (plc : PLCIn) (sw : List Char)
    (hok : prepareRest vrows frows mk b p cbf = .ok (plc, sw)) :
    vrows ≠ [] ∧ firstBadFacetRow vrows.length frows 0 = none ∧
    firstBadPolygon vrows.length b 0 = none ∧
    buildSwitchBuffer p cbf = .ok sw ∧
    plc.facetmarkerlist = buildFacetMarkers mk frows.length b.length := by
  unfold prepareRest at hok
  by_cases hN : vrows.length = 0
  · rw [if_pos hN] at hok
    exact Except.noConfusion hok
  · rw [if_neg hN] at hok
    rcases h1 : firstBadFacetRow vrows.length frows 0 with _ | i
    · rw [h1] at hok
      rcases h2 : firstBadPolygon vrows.length b 0 with _ | ⟨bi, bb⟩
      · rw [h2] at hok
        rcases h3 : buildSwitchBuffer p cbf with m | sw'
        · rw [h3] at hok
          exact Except.noConfusion hok
        · rw [h3] at hok
          have hpair := Except.ok.inj hok
          injection hpair with hfst hsnd
          refine ⟨fun he => hN (by simp [he]), rfl, rfl, ?_, ?_⟩
          · rw [hsnd]
          · rw [← hfst]
      · rw [h2] at hok
        cases bb
        · exact Except.noConfusion hok
        · exact Except.noConfusion hok
    · rw [h1] at hok
      exact Except.noConfusion hok

theorem prepare_ok_inv (v : NpArr REAL) (f : NpArr Int) (mk : Option (NpArr Int))
    (b : List (List Int)) (p : Switches) (cbf : Bool) (plc : PLCIn) (sw : List Char)
    (hok : prepare v f mk b p cbf = .ok (plc, sw)) :
    (∃ vrows, v = .twoD 3 vrows ∧ vrows ≠ [] ∧
      firstBadFacetRow vrows.length f.rowsOf 0 = none ∧
      firstBadPolygon vrows.length b 0 = none) ∧
    (∃ frows, f = .twoD 3 frows) ∧
    b ≠ [] ∧
    (mk = none ∨ ∃ d, mk = some (.oneD d) ∧ d.length = f.rowsOf.length) ∧
    (∃ mkVal, (mk = none → mkVal = none) ∧
      plc.facetmarkerlist = buildFacetMarkers mkVal f.rowsOf.length b.length) ∧
    buildSwitchBuffer p cbf = .ok sw := by
  unfold prepare at hok
  split at hok
  next m heq => exact Except.noConfusion hok
  next vrows hcv =>
    split at hok
    next m heq => exact Except.noConfusion hok
    next frows hcf =>
      split at hok
      next hb => exact Except.noConfusion hok
      next hb =>
        have hbne : b ≠ [] := by
          intro he
          exact hb (by simp [he])
        split at hok
        next m heq => exact Except.noConfusion hok
        next mkVal hcm =>
          have hv := (checkVertices_eq_ok v vrows).mp hcv
          have hf := (checkMeshFacets_eq_ok f frows).mp hcf
          have hfr : f.rowsOf = frows := by rw [hf]; rfl
          obtain ⟨hvne, h1, h2, hsw, hml⟩ :=
            prepareRest_ok_inv vrows frows mkVal b p cbf plc sw hok
          rcases (checkMarkers_eq_ok mk frows.length mkVal).mp hcm with
            ⟨hmk, hmv⟩ | ⟨d, hmk, hdl, hmv⟩
          · exact ⟨⟨vrows, hv, hvne, by rw [hfr]; exact h1, h2⟩, ⟨frows, hf⟩,
              hbne, Or.inl hmk, ⟨mkVal, fun _ => hmv, by rw [hfr]; exact hml⟩, hsw⟩
          · exact ⟨⟨vrows, hv, hvne, by rw [hfr]; exact h1, h2⟩, ⟨frows, hf⟩,
              hbne, Or.inr ⟨d, hmk, by rw [hfr]; exact hdl⟩,
              ⟨mkVal, fun he => by rw [he] at hmk; exact Option.noConfusion hmk,
                by rw [hfr]; exact hml⟩, hsw⟩

theorem mem_content_of_mem_pre {x : Char} (s : List Char) (hne : x ≠ nulChar)
    (hx : x ∈ (s ++ [nulChar]).takeWhile (fun c => decide (c ≠ nulChar))) :
    x ∈ s := by
  have hx' : x ∈ s ++ [nulChar] := List.takeWhile_subset _ hx
  rcases List.mem_append.mp hx' with h | h
  · exact h
  · simp at h
    exact absurd h hne

theorem switchFlagsAux (s sw : List Char)
    (h : (if ¬ ('n' ∈ (s ++ [nulChar]).takeWhile (fun c => decide (c ≠ nulChar)))
            ∨ ¬ ('f' ∈ (s ++ [nulChar]).takeWhile (fun c => decide (c ≠ nulChar))) then
          Except.ok ((if (s ++ [nulChar]) ≠ [] ∧ (s ++ [nulChar]).getLast? = some nulChar
              then (s ++ [nulChar]).dropLast else s ++ [nulChar])
            ++ (if 'n' ∈ (s ++ [nulChar]).takeWhile (fun c => decide (c ≠ nulChar))
                then [] else ['n'])
            ++ (if 'f' ∈ (s ++ [nulChar]).takeWhile (fun c => decide (c ≠ nulChar))
                then [] else ['f'])
            ++ [nulChar])
        else Except.ok (s ++ [nulChar])) = (Except.ok sw : Except String (List Char))) :
    'n' ∈ sw ∧ 'f' ∈ sw := by
  have hlast : (s ++ [nulChar]) ≠ [] ∧ (s ++ [nulChar]).getLast? = some nulChar :=
    ⟨by simp, List.getLast?_concat s⟩
  rw [if_pos hlast, List.dropLast_concat] at h
  by_cases hmn : 'n' ∈ (s ++ [nulChar]).takeWhile (fun c => decide (c ≠ nulChar))
  · have hns : 'n' ∈ s := mem_content_of_mem_pre s (by decide) hmn
    by_cases hmf : 'f' ∈ (s ++ [nulChar]).takeWhile (fun c => decide (c ≠ nulChar))
    · have hfs : 'f' ∈ s := mem_content_of_mem_pre s (by decide) hmf
      rw [if_neg (fun hor => Or.elim hor (fun hh => hh hmn) (fun hh => hh hmf))] at h
      have hsw := (Except.ok.inj h).symm
      subst hsw
      exact ⟨by simp [hns], by simp [hfs]⟩
    · rw [if_pos (Or.inr hmf), if_pos hmn, if_neg hmf] at h
      have hsw := (Except.ok.inj h).symm
      subst hsw
      exact ⟨by simp [hns], by simp⟩
  · rw [if_pos (Or.inl hmn), if_neg hmn] at h
    by_cases hmf : 'f' ∈ (s ++ [nulChar]).takeWhile (fun c => decide (c ≠ nulChar))
    · have hfs : 'f' ∈ s := mem_content_of_mem_pre s (by decide) hmf
      rw [if_pos hmf] at h
      have hsw := (Except.ok.inj h).symm
      subst hsw
      exact ⟨by simp, by simp [hfs]⟩
    · rw [if_neg hmf] at h
      have hsw := (Except.ok.inj h).symm
      subst hsw
      exact ⟨by simp, by simp⟩

/-- When boundary faces are requested, the normalized switch buffer always
contains both the `'n'` and `'f'` flags. -/
theorem buildSwitchBuffer_true_flags (p : Switches) (sw : List Char)
    (h : buildSwitchBuffer p true = .ok sw) : 'n' ∈ sw ∧ 'f' ∈ sw := by
  cases p with
  | other => exact Except.noConfusion h
  | str s => exact switchFlagsAux s sw h
  | bytes s => exact switchFlagsAux s sw h
  | byteArr s => exact switchFlagsAux s sw h

/-! ## Claim theorems over the marshalling phase and the whole pipeline. -/

theorem marshal_no_neighbors (cbf : Bool) (echo : String) (out : GenOut)
    (h : out.neighborlist = none) :
    marshal cbf echo out = .ok (baseOut echo out none none) := by
  have hmn : marshalNeighbors out = none := by
    unfold marshalNeighbors
    rw [if_neg (by simp [h])]
  unfold marshal
  rw [hmn]
  cases cbf <;> rfl

theorem marshal_false_eq (echo : String) (out : GenOut) :
    marshal false echo out = .ok (baseOut echo out none none) := by
  unfold marshal
  cases hmn : marshalNeighbors out <;> rfl

theorem marshal_with_neighbors (echo : String) (out : GenOut) (arr : NpArr Int)
    (hmn : marshalNeighbors out = some arr) :
    marshal true echo out =
      (match compute_boundary_face_tris (marshalTets out) arr with
       | .error m => .error m
       | .ok bf => .ok (baseOut echo out (some bf)
           (if trifaceMap out ≠ [] then
             some (reconcileMarkers (trifaceMap out) bf.rowsOf)
           else none))) := by
  unfold marshal
  rw [hmn]

theorem compute_tets_shape_error (tets nbrs : NpArr Int)
    (h : ∀ rows, tets ≠ .twoD 4 rows) :
    compute_boundary_face_tris tets nbrs = .error "tets must have shape (T,4)" := by
  unfold compute_boundary_face_tris
  cases tets with
  | oneD d => rfl
  | other => rfl
  | twoD tc trows =>
    have htc : tc ≠ 4 := fun he => h trows (by rw [he])
    show (if tc ≠ 4 then (Except.error "tets must have shape (T,4)" :
      Except String (NpArr Int)) else _) = _
    rw [if_pos htc]

theorem marshalTets_not4 (out : GenOut) (hc : out.numberofcorners ≠ 4) :
    ∀ rows, marshalTets out ≠ .twoD 4 rows := by
  intro rows
  unfold marshalTets to_array_i32
  by_cases hk : out.tetrahedronlist = none ∨ out.numberoftetrahedra ≤ 0 ∨
      out.numberofcorners ≤ 0
  · rw [if_pos hk]
    simp
  · rw [if_neg hk]
    intro he
    injection he with h1 h2
    push_neg at hk
    omega

theorem marshal_corners_error (echo : String) (out : GenOut)
    (hn : out.neighborlist ≠ none) (hc : out.numberofcorners ≠ 4) :
    marshal true echo out = .error "tets must have shape (T,4)" := by
  have hmn : marshalNeighbors out =
      some (to_array_i32 out.neighborlist out.numberoftetrahedra 4) := by
    unfold marshalNeighbors
    rw [if_pos hn]
  rw [marshal_with_neighbors echo out _ hmn,
    compute_tets_shape_error _ _ (marshalTets_not4 out hc)]

/-- Claim C10: when the generator reports a corner count other than 4 while the
adjacency output is present and boundary-face derivation is enabled, the
marshalling phase - and with it the whole `tetrahedralize_core` call - raises
exactly the error "tets must have shape (T,4)"; no output aggregate is
returned. -/
theorem c10_higher_order_corners (echo : String) (out : GenOut)
    (hn : out.neighborlist ≠ none) (hc : out.numberofcorners ≠ 4) :
    marshal true echo out = .error "tets must have shape (T,4)" ∧
    ∀ (gen : PLCIn → List Char → Except String GenOut) v f mk b p plc sw,
      prepare v f mk b p true = .ok (plc, sw) →
      gen plc sw = .ok out →
      tetrahedralize_core gen v f mk b p true =
        .error "tets must have shape (T,4)" := by
  refine ⟨marshal_corners_error echo out hn hc, ?_⟩
  intro gen v f mk b p plc sw hprep hgen
  unfold tetrahedralize_core
  rw [hprep]
  show (match gen plc sw with
        | Except.error e => (Except.error ("TetGen failed: " ++ e) :
            Except String TetwrapOut)
        | Except.ok o => marshal true (echoSwitches p) o) = _
  rw [hgen]
  show marshal true (echoSwitches p) out = _
  exact marshal_corners_error (echoSwitches p) out hn hc

/-- Claim C5: with adjacency absent or derivation not requested, both derived
boundary-face fields are the absent value (not empty containers); with
derivation performed but the output faces or their markers absent, the derived
faces are present while their markers alone are absent. -/
theorem c5_absence_propagation (out : GenOut) (echo : String) :
    (∀ cbf : Bool, out.neighborlist = none →
      marshal cbf echo out = .ok (baseOut echo out none none) ∧
      (baseOut echo out none none).boundary_tri_faces = none ∧
      (baseOut echo out none none).boundary_tri_markers = none) ∧
    marshal false echo out = .ok (baseOut echo out none none) ∧
    (∀ io, out.neighborlist ≠ none →
      ¬ (0 < out.numberoftrifaces ∧ out.trifacelist ≠ none ∧
          out.trifacemarkerlist ≠ none) →
      marshal true echo out = .ok io →
      io.boundary_tri_markers = none ∧ ∃ arr, io.boundary_tri_faces = some arr) := by
  refine ⟨fun cbf h => ⟨marshal_no_neighbors cbf echo out h, rfl, rfl⟩,
    marshal_false_eq echo out, ?_⟩
  intro io hn hcond hok
  have hmn : marshalNeighbors out =
      some (to_array_i32 out.neighborlist out.numberoftetrahedra 4) := by
    unfold marshalNeighbors
    rw [if_pos hn]
  have htm : trifaceMap out = [] := by
    unfold trifaceMap
    rw [if_neg hcond]
  rw [marshal_with_neighbors echo out _ hmn] at hok
  rcases hcomp : compute_boundary_face_tris (marshalTets out)
      (to_array_i32 out.neighborlist out.numberoftetrahedra 4) with m | bf
  · rw [hcomp] at hok
    exact Except.noConfusion hok
  · rw [hcomp] at hok
    have hio := (Except.ok.inj hok).symm
    subst hio
    refine ⟨?_, ⟨bf, rfl⟩⟩
    show (if trifaceMap out ≠ [] then
      some (reconcileMarkers (trifaceMap out) bf.rowsOf) else none) = none
    rw [if_neg (fun hne => hne htm)]

/-- Claim C6: every Shape/Range violation makes `prepare` fail with a
descriptive error, and `tetrahedralize_core` returns that same error for every
generator - i.e. the generator is never invoked on such inputs. -/
theorem c6_validation (v : NpArr REAL) (f : NpArr Int) (mk : Option (NpArr Int))
    (b : List (List Int)) (p : Switches) (cbf : Bool)
    (h : hasShapeRangeViolation v f mk b) :
    ∃ m, prepare v f mk b p cbf = .error m ∧
      ∀ gen, tetrahedralize_core gen v f mk b p cbf = .error m := by
  have hne : ∀ x, prepare v f mk b p cbf ≠ .ok x := by
    rintro ⟨plc, sw⟩ hok
    obtain ⟨⟨vrows, hveq, hvne, h1, h2⟩, ⟨frows, hfeq⟩, hbne, hmkOk, _, _⟩ :=
      prepare_ok_inv v f mk b p cbf plc sw hok
    have hvr : v.rowsOf = vrows := by rw [hveq]; rfl
    rcases h with h | h | h | h | h | h | h | h | h
    · exact h vrows hveq
    · exact h frows hfeq
    · exact hbne h
    · rw [hvr] at h
      exact hvne h
    · obtain ⟨i, hi, k, hk, hor⟩ := h
      have hall := (firstBadFacetRow_eq_none_iff vrows.length f.rowsOf 0).mp h1
      have hrow : f.rowsOf.getD i [] ∈ f.rowsOf := by
        rw [List.getD_eq_getElem _ _ hi]
        exact f.rowsOf.getElem_mem hi
      have hbad : rowOutOfRange vrows.length (f.rowsOf.getD i []) = true :=
        (rowOutOfRange_iff _ _).mpr ⟨k, hk, by rw [← hvr]; exact hor⟩
      rw [hall _ hrow] at hbad
      exact Bool.noConfusion hbad
    · obtain ⟨bi, hbi, hlen⟩ := h
      have hall := (firstBadPolygon_eq_none_iff vrows.length b 0).mp h2
      have hpoly : b.getD bi [] ∈ b := by
        rw [List.getD_eq_getElem _ _ hbi]
        exact b.getElem_mem hbi
      exact (hall _ hpoly).1 hlen
    · obtain ⟨bi, hbi, vid, hvid, hor⟩ := h
      have hall := (firstBadPolygon_eq_none_iff vrows.length b 0).mp h2
      have hpoly : b.getD bi [] ∈ b := by
        rw [List.getD_eq_getElem _ _ hbi]
        exact b.getElem_mem hbi
      have hbad : polyOutOfRange vrows.length (b.getD bi []) = true :=
        (polyOutOfRange_iff _ _).mpr ⟨vid, hvid, by rw [← hvr]; exact hor⟩
      rw [(hall _ hpoly).2] at hbad
      exact Bool.noConfusion hbad
    · obtain ⟨arr, hmkeq, hnot⟩ := h
      rcases hmkOk with hnone | ⟨d, hsome, _⟩
      · rw [hnone] at hmkeq
        exact Option.noConfusion hmkeq
      · rw [hsome] at hmkeq
        exact hnot d (Option.some.inj hmkeq).symm
    · obtain ⟨d, hmkeq, hlen⟩ := h
      rcases hmkOk with hnone | ⟨d', hsome, hdl⟩
      · rw [hnone] at hmkeq
        exact Option.noConfusion hmkeq
      · rw [hsome] at hmkeq
        have hdd : d' = d := by
          injection Option.some.inj hmkeq
        rw [hdd] at hdl
        exact hlen hdl
  cases hp : prepare v f mk b p cbf with
  | error m =>
    refine ⟨m, rfl, fun gen => ?_⟩
    unfold tetrahedralize_core
    rw [hp]
  | ok x => exact absurd hp (hne x)

/-- Claim C6, witness: the theorem applied to a concrete input with zero
boundary loops; the generator (here a stub) is never consulted. -/
theorem c6_validation_witness :
    prepare (NpArr.twoD 3 [[(0 : ℚ), 0, 0]]) (NpArr.twoD 3 []) none []
        (Switches.str []) true =
      .error "boundary_facets must contain at least one polygon (list of vertex indices)" ∧
    tetrahedralize_core (fun _ _ => .error "") (NpArr.twoD 3 [[(0 : ℚ), 0, 0]])
        (NpArr.twoD 3 []) none [] (Switches.str []) true =
      .error "boundary_facets must contain at least one polygon (list of vertex indices)" := by
  obtain ⟨m, h1, h2⟩ := c6_validation (NpArr.twoD 3 [[(0 : ℚ), 0, 0]])
    (NpArr.twoD 3 []) none [] (Switches.str []) true
    (Or.inr (Or.inr (Or.inl rfl)))
  have hm : m =
      "boundary_facets must contain at least one polygon (list of vertex indices)" := by
    have hval : prepare (NpArr.twoD 3 [[(0 : ℚ), 0, 0]]) (NpArr.twoD 3 []) none []
        (Switches.str []) true =
        .error "boundary_facets must contain at least one polygon (list of vertex indices)" :=
      rfl
    rw [h1] at hval
    exact Except.error.inj hval
  subst hm
  exact ⟨h1, h2 _⟩

/-- Claim C9: the legacy entry point is the core pipeline with no facet markers
and boundary-face derivation enabled, keeping only `(points, tets)`; whenever
its validation/assembly succeeds, every mesh-facet marker passed to the
generator is `-1` and the normalized switch buffer contains both `'n'` and
`'f'`. -/
theorem c9_build_volume_mesh (gen : PLCIn → List Char → Except String GenOut)
    (v : NpArr REAL) (f : NpArr Int) (b : List (List Int)) (p : Switches) :
    build_volume_mesh gen v f b p =
      (tetrahedralize_core gen v f none b p true).map (fun io => (io.points, io.tets)) ∧
    ∀ plc sw, prepare v f none b p true = .ok (plc, sw) →
      (∀ i, i + b.length < plc.facetmarkerlist.length →
        plc.facetmarkerlist.getD i 0 = -1) ∧
      'n' ∈ sw ∧ 'f' ∈ sw := by
  constructor
  · unfold build_volume_mesh
    cases h : tetrahedralize_core gen v f none b p true with
    | error m => simp [h, Except.map]
    | ok io => simp [h, Except.map]
  · intro plc sw hok
    obtain ⟨_, _, _, _, ⟨mkVal, hmk, hml⟩, hsw⟩ :=
      prepare_ok_inv v f none b p true plc sw hok
    have hmkv : mkVal = none := hmk rfl
    subst hmkv
    refine ⟨?_, buildSwitchBuffer_true_flags p sw hsw⟩
    intro i hi
    rw [hml] at hi ⊢
    rw [buildFacetMarkers_length] at hi
    have hiM : i < f.rowsOf.length := by omega
    rw [buildFacetMarkers_mesh none _ _ i hiM]

/-- Claim C9, witness: the theorem applied at a concrete valid input with an
empty switch payload; the assembled marker list is all `-1` (vacuously, `M = 0`)
and the buffer gains both flags. -/
theorem c9_build_volume_mesh_witness :
    'n' ∈ (['n', 'f', nulChar] : List Char) ∧
    'f' ∈ (['n', 'f', nulChar] : List Char) := by
  have h := (c9_build_volume_mesh (fun _ _ => .error "") (NpArr.twoD 3 [[(0 : ℚ), 0, 0]])
    (NpArr.twoD 3 []) [[0, 0, 0]] (Switches.str [])).2
    { numberofpoints := 1, pointlist := [0, 0, 0],
      facetlist := [[0, 0, 0]],
      facetmarkerlist := buildFacetMarkers none 0 1 }
    ['n', 'f', nulChar] rfl
  exact h.2

/-- Claim C8 (amended): the marshaller never raises for a missing quantity, and
presence is `buffer non-null AND count > 0` for explicit faces (and their
markers), edges (and their markers), and per-tetrahedron attributes - but only
`buffer non-null` for adjacency, per-point markers, and per-tetrahedron
volumes, so those yield a present empty container when the count is zero. -/
theorem c8_output_marshaller (out : GenOut) (echo : String) :
    marshal false echo out = .ok (baseOut echo out none none) ∧
    ((baseOut echo out none none).tri_faces ≠ none ↔
      0 < out.numberoftrifaces ∧ out.trifacelist ≠ none) ∧
    ((baseOut echo out none none).tri_markers ≠ none ↔
      0 < out.numberoftrifaces ∧ out.trifacelist ≠ none ∧
        out.trifacemarkerlist ≠ none) ∧
    ((baseOut echo out none none).edges ≠ none ↔
      0 < out.numberofedges ∧ out.edgelist ≠ none) ∧
    ((baseOut echo out none none).edge_markers ≠ none ↔
      0 < out.numberofedges ∧ out.edgelist ≠ none ∧ out.edgemarkerlist ≠ none) ∧
    ((baseOut echo out none none).neighbors ≠ none ↔ out.neighborlist ≠ none) ∧
    ((baseOut echo out none none).point_markers ≠ none ↔
      out.pointmarkerlist ≠ none) ∧
    ((baseOut echo out none none).tet_attr ≠ none ↔
      out.tetrahedronattributelist ≠ none ∧
        0 < out.numberoftetrahedronattributes) ∧
    ((baseOut echo out none none).tet_vol ≠ none ↔
      out.tetrahedronvolumelist ≠ none) := by
  refine ⟨marshal_false_eq echo out, ?_, ?_, ?_, ?_, ?_, ?_, ?_, ?_⟩
  · show marshalTriFaces out ≠ none ↔ _
    unfold marshalTriFaces
    by_cases h : 0 < out.numberoftrifaces ∧ out.trifacelist ≠ none
    · simp [h]
    · simp [h]
  · show marshalTriMarkers out ≠ none ↔ _
    unfold marshalTriMarkers
    by_cases h1 : 0 < out.numberoftrifaces ∧ out.trifacelist ≠ none
    · rw [if_pos h1]
      by_cases h2 : out.trifacemarkerlist ≠ none
      · rw [if_pos h2]
        simp [h1.1, h1.2, h2]
      · rw [if_neg h2]
        simp only [ne_eq, not_not] at h2
        simp [h2]
    · rw [if_neg h1]
      constructor
      · intro hcon
        exact absurd rfl hcon
      · rintro ⟨ha, hb, _⟩
        exact absurd ⟨ha, hb⟩ h1
  · show marshalEdges out ≠ none ↔ _
    unfold marshalEdges
    by_cases h : 0 < out.numberofedges ∧ out.edgelist ≠ none
    · simp [h]
    · simp [h]
  · show marshalEdgeMarkers out ≠ none ↔ _
    unfold marshalEdgeMarkers
    by_cases h1 : 0 < out.numberofedges ∧ out.edgelist ≠ none
    · rw [if_pos h1]
      by_cases h2 : out.edgemarkerlist ≠ none
      · rw [if_pos h2]
        simp [h1.1, h1.2, h2]
      · rw [if_neg h2]
        simp only [ne_eq, not_not] at h2
        simp [h2]
    · rw [if_neg h1]
      constructor
      · intro hcon
        exact absurd rfl hcon
      · rintro ⟨ha, hb, _⟩
        exact absurd ⟨ha, hb⟩ h1
  · show marshalNeighbors out ≠ none ↔ _
    unfold marshalNeighbors
    by_cases h : out.neighborlist ≠ none
    · simp [h]
    · simp [h]
  · show marshalPointMarkers out ≠ none ↔ _
    unfold marshalPointMarkers
    by_cases h : out.pointmarkerlist ≠ none
    · simp [h]
    · simp [h]
  · show marshalTetAttr out ≠ none ↔ _
    unfold marshalTetAttr
    by_cases h : out.tetrahedronattributelist ≠ none ∧
        0 < out.numberoftetrahedronattributes
    · simp [h]
    · simp [h]
  · show marshalTetVol out ≠ none ↔ _
    unfold marshalTetVol
    by_cases h : out.tetrahedronvolumelist ≠ none
    · simp [h]
    · simp [h]

/-- A generator output with a non-null adjacency buffer but zero tetrahedra:
the quantity the claim says should be reported absent when the count is not
positive. -/
def outC8 : GenOut :=
  { numberofpoints := 0, pointlist := none,
    numberoftetrahedra := 0, numberofcorners := 4,
    tetrahedronlist := none,
    numberoftrifaces := 0, trifacelist := none, trifacemarkerlist := none,
    numberofedges := 0, edgelist := none, edgemarkerlist := none,
    neighborlist := some [], pointmarkerlist := none,
    numberoftetrahedronattributes := 0, tetrahedronattributelist := none,
    tetrahedronvolumelist := none }

/-- Claim C8, counterexample to the claim as stated: the adjacency buffer is
non-null but its count is 0, yet the marshalled neighbors field is a present
(empty) array, not the absent value. -/
theorem c8_output_marshaller_counterexample :
    outC8.neighborlist = some [] ∧ outC8.numberoftetrahedra = 0 ∧
    marshal false "" outC8 = .ok (baseOut "" outC8 none none) ∧
    (baseOut "" outC8 none none).neighbors = some (NpArr.oneD []) := by
  refine ⟨rfl, rfl, marshal_false_eq "" outC8, rfl⟩

/-- Claim C10, witness: a generator output with 10-corner tetrahedra and
adjacency present; both the marshalling phase and a full core call report the
shape error. -/
def outC10 : GenOut :=
  { numberofpoints := 1, pointlist := some [0, 0, 0],
    numberoftetrahedra := 1, numberofcorners := 10,
    tetrahedronlist := some [0, 0, 0, 0, 0, 0, 0, 0, 0, 0],
    numberoftrifaces := 0, trifacelist := none, trifacemarkerlist := none,
    numberofedges := 0, edgelist := none, edgemarkerlist := none,
    neighborlist := some [-1, -1, -1, -1], pointmarkerlist := none,
    numberoftetrahedronattributes := 0, tetrahedronattributelist := none,
    tetrahedronvolumelist := none }

theorem c10_higher_order_corners_witness :
    marshal true "" outC10 = .error "tets must have shape (T,4)" ∧
    tetrahedralize_core (fun _ _ => .ok outC10) (NpArr.twoD 3 [[(0 : ℚ), 0, 0]])
        (NpArr.twoD 3 []) none [[0, 0, 0]] (Switches.str []) true =
      .error "tets must have shape (T,4)" := by
  have h := c10_higher_order_corners "" outC10 (by simp [outC10]) (by simp [outC10])
  refine ⟨h.1, ?_⟩
  exact h.2 (fun _ _ => .ok outC10) (NpArr.twoD 3 [[(0 : ℚ), 0, 0]])
    (NpArr.twoD 3 []) none [[0, 0, 0]] (Switches.str [])
    { numberofpoints := 1, pointlist := [0, 0, 0],
      facetlist := [[0, 0, 0]],
      facetmarkerlist := buildFacetMarkers none 0 1 }
    ['n', 'f', nulChar] rfl rfl

/-- A generator output with adjacency present, linear tetrahedra, and no
explicit output faces. -/
def outC5 : GenOut :=
  { numberofpoints := 4, pointlist := some [0, 0, 0, 1, 0, 0, 0, 1, 0, 0, 0, 1],
    numberoftetrahedra := 1, numberofcorners := 4,
    tetrahedronlist := some [0, 1, 2, 3],
    numberoftrifaces := 0, trifacelist := none, trifacemarkerlist := none,
    numberofedges := 0, edgelist := none, edgemarkerlist := none,
    neighborlist := some [-1, -1, -1, -1], pointmarkerlist := none,
    numberoftetrahedronattributes := 0, tetrahedronattributelist := none,
    tetrahedronvolumelist := none }

/-- A generator output with no adjacency at all. -/
def outC5none : GenOut :=
  { numberofpoints := 0, pointlist := none,
    numberoftetrahedra := 0, numberofcorners := 4,
    tetrahedronlist := none,
    numberoftrifaces := 0, trifacelist := none, trifacemarkerlist := none,
    numberofedges := 0, edgelist := none, edgemarkerlist := none,
    neighborlist := none, pointmarkerlist := none,
    numberoftetrahedronattributes := 0, tetrahedronattributelist := none,
    tetrahedronvolumelist := none }

/-- Claim C5, witness: the theorem applied to a generator output with no
adjacency (both boundary fields absent) and to one with adjacency but no
explicit faces (faces derived, markers alone absent). -/
theorem c5_absence_propagation_witness :
    marshal true "" outC5none = .ok (baseOut "" outC5none none none) ∧
    (baseOut "" outC5none none none).boundary_tri_faces = none ∧
    (baseOut "" outC5none none none).boundary_tri_markers = none ∧
    ((baseOut "" outC5
        (some (NpArr.twoD 3 [[1, 2, 3], [0, 3, 2], [0, 1, 3], [0, 2, 1]]))
        none).boundary_tri_markers = none ∧
      ∃ arr, (baseOut "" outC5
        (some (NpArr.twoD 3 [[1, 2, 3], [0, 3, 2], [0, 1, 3], [0, 2, 1]]))
        none).boundary_tri_faces = some arr) := by
  obtain ⟨ha, hb, hc⟩ := (c5_absence_propagation outC5none "").1 true rfl
  refine ⟨ha, hb, hc, ?_⟩
  exact (c5_absence_propagation outC5 "").2.2 _ (by decide) (by decide) rfl

end Tetwrap
